import Mathlib

/-!
Shallow embedding of the Localiser CLI (src/index.js).

The program is a sequential orchestrator: it loads a JSON configuration,
computes the list of target languages, validates the requested namespaces,
optionally asks the user for confirmation, and then walks the matrix of
(language, namespace) pairs, translating one JSON locale file per pair
through an external model API and writing the result.

Modelling decisions:
* Platform services are oracles in an `Env` record: the file system seen at
  start (`fs0`), the OpenAI chat-completion call (`api`, indexed by the
  number of requests already made, receiving the prompt), `JSON.parse`
  (`parse`), `JSON.stringify` (`stringify`), the configuration read
  (`configLoad`, the result of `fs.readJson` on the config path) and the
  interactive answer typed at the confirmation prompt (`answer`).
* The mutable fields of the `Localiser` class (`this.stats`) and all side
  effects are threaded as an explicit `RunState`: the current file system,
  the number of API calls made, a chronological trace of observable events
  (log lines, progress redraws, the prompt, file writes) and the history of
  every value the statistics record takes, appended at each mutation.
* Fallible platform calls are `Except`/`Option` valued; JavaScript
  `try`/`catch` blocks become case analyses on those values.
* Terminal rendering (colors, the progress-bar arithmetic of
  `showCombinedProgress`) is display-only (spec section 4.6); a progress
  redraw is recorded as a trace event.
* `fs.ensureDir` only creates directories; directories are not part of the
  file-system model, so it has no modelled effect.
-/

namespace Localiser

/-- JSON values as produced by `JSON.parse`.  Numbers are abstracted to
`Int`; no operation of the program inspects numeric values. -/
inductive Json where
  | null
  | bool (b : Bool)
  | num (n : Int)
  | str (s : String)
  | arr (elems : List Json)
  | obj (fields : List (String × Json))

/-- Contents of a file in the modelled file system: a JSON document, or a
file that exists but whose contents `fs.readJson` would fail to parse. -/
inductive FileData where
  | json (value : Json)
  | invalid

/-- The modelled file system: an association list from paths to contents,
newest entry first, so a write shadows older entries for the same path. -/
abbrev FS := List (String × FileData)

/-- Path lookup in the modelled file system; the first match wins. -/
def fsLookup : FS → String → Option FileData
  | [], _ => none
  | (q, d) :: rest, p => if q = p then some d else fsLookup rest p

/-- Observable effects of a run, in program order. -/
inductive Event where
  | log (text : String)
  | progress (language ns : String)
  | apiCall
  | prompt (question : String)
  | write (path : String) (content : Json)

/-- Whether an event is a file write. -/
def Event.isWrite : Event → Bool
  | Event.write _ _ => true
  | _ => false

/-- Whether an event is a write to the given path. -/
def isWriteTo (path : String) : Event → Bool
  | Event.write q _ => q == path
  | _ => false

/-- The project configuration (`localiser.json`). -/
structure Config where
  directory : String
  sourceLanguage : String
  languages : List String
  namespaces : List String

/-- Parsed CLI options.  `language` defaults to the empty string (the
commander default); `namespace` is the comma-split list when `-n` was
given and `none` otherwise; `config` is the configuration path. -/
structure Options where
  language : String
  «namespace» : Option (List String)
  config : String

/-- Outcome of one `openai.chat.completions.create` call: either the
request (or response access) throws, or it yields the message content. -/
inductive ApiOutcome where
  | throwErr (message : String)
  | ok (content : String)

/-- The environment of a run: CLI options plus all platform oracles. -/
structure Env where
  options : Options
  configLoad : Except String Config
  fs0 : FS
  api : Nat → String → ApiOutcome
  parse : String → Except String Json
  stringify : Json → String
  answer : String

/-- One counter group of `this.stats`: `{ total, completed, failed }`. -/
structure GroupCounters where
  total : Nat
  completed : Nat
  failed : Nat

/-- The run statistics: counters for languages and for namespaces. -/
structure Stats where
  languages : GroupCounters
  namespaces : GroupCounters

/-- The threaded mutable state of a run.  `statsHistory` records the value
of `stats` after every mutation, reifying "every point" of the run for
invariant statements. -/
structure RunState where
  stats : Stats
  fs : FS
  apiCalls : Nat
  trace : List Event
  statsHistory : List Stats

/-- Result of `run`: either `process.exit(code)` was called, or the method
returned normally.  Both carry the final state. -/
inductive RunResult where
  | exited (code : Nat) (state : RunState)
  | finished (state : RunState)

/-- The final state of a run result. -/
def RunResult.st : RunResult → RunState
  | RunResult.exited _ s => s
  | RunResult.finished s => s

/-- The exit code, when `process.exit` was called. -/
def RunResult.exitCode : RunResult → Option Nat
  | RunResult.exited c _ => some c
  | RunResult.finished _ => none

/-- The `log` method: color-tag rendering is presentation-only, so the
raw text is recorded as a trace event. -/
def log (st : RunState) (text : String) : RunState :=
  { st with trace := st.trace ++ [Event.log text] }

/-- The `showCombinedProgress` method: bar arithmetic is presentation-only
(spec section 4.6); the redraw is recorded as a trace event. -/
def showCombinedProgress (st : RunState) (currentLanguage currentNamespace : String) : RunState :=
  { st with trace := st.trace ++ [Event.progress currentLanguage currentNamespace] }

/-- Model of `String.prototype.trim`, structurally on the character list. -/
def strTrim (s : String) : String :=
  ⟨(((s.data.dropWhile Char.isWhitespace).reverse.dropWhile Char.isWhitespace).reverse)⟩

/-- Model of `String.prototype.toLowerCase`. -/
def strToLower (s : String) : String :=
  ⟨s.data.map Char.toLower⟩

/-- The `promptUser` method: records the question and yields the user's
answer, trimmed and lower-cased as in the source. -/
def promptUser (env : Env) (st : RunState) (question : String) : String × RunState :=
  (strToLower (strTrim env.answer), { st with trace := st.trace ++ [Event.prompt question] })

/-- The `fs.writeJson` call: full overwrite of the target path, recorded
as a write event. -/
def writeJson (st : RunState) (path : String) (content : Json) : RunState :=
  { st with fs := (path, FileData.json content) :: st.fs
          , trace := st.trace ++ [Event.write path content] }

/-- Record a mutation of `this.stats`, appending the new value to the
history. -/
def pushStats (st : RunState) (stats : Stats) : RunState :=
  { st with stats := stats, statsHistory := st.statsHistory ++ [stats] }

/-- `this.stats.languages.total = n` (src/index.js:322). -/
def setLangTotal (st : RunState) (n : Nat) : RunState :=
  pushStats st { st.stats with languages := { st.stats.languages with total := n } }

/-- `this.stats.namespaces.total = n` (src/index.js:323). -/
def setNsTotal (st : RunState) (n : Nat) : RunState :=
  pushStats st { st.stats with namespaces := { st.stats.namespaces with total := n } }

/-- `this.stats.languages.completed++` (src/index.js:374). -/
def incLangCompleted (st : RunState) : RunState :=
  pushStats st { st.stats with languages :=
    { st.stats.languages with completed := st.stats.languages.completed + 1 } }

/-- `this.stats.languages.failed++` (src/index.js:364,375). -/
def incLangFailed (st : RunState) : RunState :=
  pushStats st { st.stats with languages :=
    { st.stats.languages with failed := st.stats.languages.failed + 1 } }

/-- `this.stats.namespaces.completed++` (src/index.js:268). -/
def incNsCompleted (st : RunState) : RunState :=
  pushStats st { st.stats with namespaces :=
    { st.stats.namespaces with completed := st.stats.namespaces.completed + 1 } }

/-- `this.stats.namespaces.failed++` (src/index.js:269). -/
def incNsFailed (st : RunState) : RunState :=
  pushStats st { st.stats with namespaces :=
    { st.stats.namespaces with failed := st.stats.namespaces.failed + 1 } }

/-- The state at construction of the `Localiser` object: zeroed counters,
the initial file system, no API calls, no events. -/
def initState (env : Env) : RunState :=
  { stats := { languages := ⟨0, 0, 0⟩, namespaces := ⟨0, 0, 0⟩ }
  , fs := env.fs0, apiCalls := 0, trace := [], statsHistory := [] }

/-- Model of `path.join` for the components this program joins; path
normalisation is irrelevant for the claims. -/
def pathJoin (directory part : String) : String :=
  directory ++ "/" ++ part

/-- Model of `String.prototype.endsWith`. -/
def strEndsWith (s suffix : String) : Bool :=
  suffix.data.reverse.isPrefixOf s.data.reverse

/-- The `getFilePath` method (src/index.js:193): join directory and name,
appending `.json` unless the joined path already ends with it. -/
def getFilePath (directory ns : String) : String :=
  let filePath := pathJoin directory ns
  if strEndsWith filePath ".json" then filePath else filePath ++ ".json"

/-- The extension rule of `getFilePath`, factored out so that applying it
to its own output can be stated. -/
def ensureJsonExt (filePath : String) : String :=
  if strEndsWith filePath ".json" then filePath else filePath ++ ".json"

/-- Model of `path.basename`: the part after the last separator (the
program only applies it to `directory/language` paths). -/
def basenameAux : List Char → List Char → List Char
  | acc, [] => acc.reverse
  | acc, c :: rest => if c = '/' then basenameAux [] rest else basenameAux (c :: acc) rest

/-- Model of `path.basename`. -/
def basename (p : String) : String :=
  ⟨basenameAux [] p.data⟩

/-- Remove the first occurrence of `pat` from a character list; `none`
when `pat` does not occur. -/
def replaceFirstAux (pat : List Char) : List Char → Option (List Char)
  | [] => if pat.isEmpty then some [] else none
  | c :: cs =>
    if pat.isPrefixOf (c :: cs) then some ((c :: cs).drop pat.length)
    else
      match replaceFirstAux pat cs with
      | some r => some (c :: r)
      | none => none

/-- Model of JavaScript `s.replace(pat, "")` with a string pattern: only
the first occurrence is removed. -/
def replaceFirst (s pat : String) : String :=
  match replaceFirstAux pat.data s.data with
  | some r => ⟨r⟩
  | none => s

/-- Model of `Object.keys`: field names for an object, index strings for
strings and arrays, `[]` for booleans and numbers; throws a `TypeError`
on `null`. -/
def objectKeys : Json → Except String (List String)
  | Json.null => Except.error "TypeError: cannot convert null to object"
  | Json.bool _ => Except.ok []
  | Json.num _ => Except.ok []
  | Json.str s => Except.ok ((List.range s.length).map (fun i => toString i))
  | Json.arr elems => Except.ok ((List.range elems.length).map (fun i => toString i))
  | Json.obj fields => Except.ok (fields.map (fun f => f.1))

/-- The `buildTranslationPrompt` method (src/index.js:178), with
`JSON.stringify(jsonObject, null, 2)` supplied by the environment. -/
def buildTranslationPrompt (env : Env) (jsonObject : Json) (targetLang : String) : String :=
  "Translate the following JSON object to " ++ targetLang ++
  ". Keep all keys exactly the same and translate only the string values. " ++
  "Preserve any placeholders like \x7b0\x7d, \x7b1\x7d, \x7bcount\x7d, etc. exactly as they are.\n\n" ++
  "Input JSON:\n" ++ env.stringify jsonObject ++
  "\n\nReturn the translated JSON object with the same structure."

/-- The `openai.chat.completions.create` call inside `translateJson`:
one request is issued (counted and traced); its outcome comes from the
environment oracle.  A thrown error is the `Except.error` case. -/
def apiCreate (env : Env) (st : RunState) (prompt : String) : Except String String × RunState :=
  ( match env.api st.apiCalls prompt with
    | ApiOutcome.throwErr m => Except.error m
    | ApiOutcome.ok c => Except.ok c
  , { st with apiCalls := st.apiCalls + 1, trace := st.trace ++ [Event.apiCall] } )

/-- The `translateJson` method (src/index.js:143): build the prompt, issue
one request; on request failure (outer catch) log and fall through, on a
parse failure of the trimmed content (inner catch) log and fall through;
both failure paths return the empty object.  The function is total: no
exception escapes to the caller. -/
def translateJson (env : Env) (st : RunState) (jsonObject : Json) (targetLang : String) :
    Json × RunState :=
  let prompt := buildTranslationPrompt env jsonObject targetLang
  match apiCreate env st prompt with
  | (Except.error m, st1) =>
      (Json.obj [], log st1 ("Translation error for " ++ targetLang ++ ": " ++ m))
  | (Except.ok content, st1) =>
      match env.parse (strTrim content) with
      | Except.ok translatedJson => (translatedJson, st1)
      | Except.error e =>
          (Json.obj [], log st1 ("Failed to parse translation response: " ++ e))

/-- Result of `validateNamespaces`. -/
structure ValidationResult where
  valid : List String
  errors : List String

/-- The `validateNamespaces` method (src/index.js:223): with no requested
namespaces, all configured namespaces are valid; otherwise the requested
list is partitioned by membership in the configuration. -/
def validateNamespaces (config : Config) (inputNamespaces : Option (List String)) :
    ValidationResult :=
  match inputNamespaces with
  | none => { valid := config.namespaces, errors := [] }
  | some l =>
    if l.length = 0 then { valid := config.namespaces, errors := [] }
    else
      { valid := l.filter (fun ns => config.namespaces.contains ns)
      , errors := l.filter (fun ns => !(config.namespaces.contains ns)) }

/-- The namespace list `processLocale` iterates over (src/index.js:253):
the `namespaces` argument when non-empty, else the configured list. -/
def localeNamespaces (config : Config) (namespaces : Option (List String)) : List String :=
  match namespaces with
  | some ns => if 0 < ns.length then ns else config.namespaces
  | none => config.namespaces

/-- The `processNamespaceFile` method (src/index.js:282): fail if the
source file is absent; read it (a read failure is caught and fails the
pair); translate; write the target file only when `Object.keys` of the
result is non-empty, else fail.  The `Object.keys` `TypeError` on `null`
is caught by the same `catch`. -/
def processNamespaceFile (env : Env) (st : RunState)
    (sourceLanguageDir targetLanguageDir file : String) : Bool × RunState :=
  let sourceFilePath := getFilePath sourceLanguageDir file
  let targetFilePath := getFilePath targetLanguageDir file
  match fsLookup st.fs sourceFilePath with
  | none => (false, st)
  | some FileData.invalid => (false, st)
  | some (FileData.json sourceContent) =>
    let r := translateJson env st sourceContent (basename targetLanguageDir)
    match objectKeys r.1 with
    | Except.error _ => (false, r.2)
    | Except.ok keys =>
      if 0 < keys.length then (true, writeJson r.2 targetFilePath r.1)
      else (false, r.2)

/-- The per-file loop of `processLocale` (src/index.js:257): redraw the
progress line, process the file, and bump the namespace counter that the
outcome selects. -/
def filesLoop (env : Env) (sourceLanguageDir targetLanguageDir targetLanguage : String) :
    List String → RunState → RunState
  | [], st => st
  | file :: rest, st =>
    let st1 := showCombinedProgress st targetLanguage (replaceFirst file ".json")
    let r := processNamespaceFile env st1 sourceLanguageDir targetLanguageDir file
    let st2 := if r.1 then incNsCompleted r.2 else incNsFailed r.2
    filesLoop env sourceLanguageDir targetLanguageDir targetLanguage rest st2

/-- The `processLocale` method (src/index.js:246): process every
namespace file for one target language and report success exactly when
the (run-global) namespaces completed counter equals the total. -/
def processLocale (env : Env) (config : Config) (st : RunState)
    (sourceLanguage targetLanguage : String) (namespaces : Option (List String)) :
    Bool × RunState :=
  let sourceLanguageDir := pathJoin config.directory sourceLanguage
  let targetLanguageDir := pathJoin config.directory targetLanguage
  let validNamespaces := localeNamespaces config namespaces
  let namespaceFiles := validNamespaces.map (fun ns => ns ++ ".json")
  let st1 := filesLoop env sourceLanguageDir targetLanguageDir targetLanguage namespaceFiles st
  (st1.stats.namespaces.completed == st1.stats.namespaces.total, st1)

/-- The target-language list of `run` (src/index.js:311): the `-l` value
when given, else every configured language except the source language. -/
def languagesToTranslate (env : Env) (config : Config) : List String :=
  if env.options.language ≠ "" then [env.options.language]
  else config.languages.filter (fun lang => lang != config.sourceLanguage)

/-- The per-language loop of `run` (src/index.js:361): an unsupported
language is logged and counted as failed; otherwise `processLocale` runs
(receiving the raw `this.options.namespace`, as in the source) and the
language counter selected by its result is bumped, then the progress line
is redrawn. -/
def langLoop (env : Env) (config : Config) : List String → RunState → RunState
  | [], st => st
  | language :: rest, st =>
    if config.languages.contains language then
      let r := processLocale env config st config.sourceLanguage language env.options.«namespace»
      let st1 := if r.1 then incLangCompleted r.2 else incLangFailed r.2
      langLoop env config rest (showCombinedProgress st1 language "completed")
    else
      langLoop env config rest (incLangFailed (log st ("Unsupported language: " ++ language)))

/-- The tail of `run` shared by both prompt outcomes (src/index.js:354):
log the namespace list, run the language loop, log completion. -/
def runLoop (env : Env) (config : Config) (targets : List String)
    (vr : ValidationResult) (st : RunState) : RunResult :=
  let st := log st ("Namespaces: " ++ String.intercalate ", " vr.valid)
  let st := langLoop env config targets st
  RunResult.finished (log st "Translation process completed!")

/-- The confirmation gate of `run` (src/index.js:335): log the invalid
and available namespaces, prompt; any answer other than `y`/`yes` logs a
cancellation and exits with status 0, else the run continues. -/
def promptGate (env : Env) (config : Config) (targets : List String)
    (vr : ValidationResult) (st : RunState) : RunResult :=
  let st := log st ("Invalid namespaces: " ++ String.intercalate ", " vr.errors)
  let st := log st ("Available namespaces: " ++ String.intercalate ", " config.namespaces)
  let p := promptUser env st "Continue with valid namespaces only? (y/n): "
  let continueChoice := p.1
  let st := p.2
  if continueChoice ≠ "y" ∧ continueChoice ≠ "yes" then
    RunResult.exited 0 (log st "Operation cancelled by user.")
  else
    runLoop env config targets vr (log st "Continuing with valid namespaces...")

/-- The body of `run` once the configuration has loaded
(src/index.js:311): compute targets, validate namespaces once, set both
totals, log the header, and pass through the confirmation gate when any
requested namespace is invalid. -/
def runWithConfig (env : Env) (config : Config) : RunResult :=
  let targets := languagesToTranslate env config
  let vr := validateNamespaces config env.options.«namespace»
  let st := setNsTotal (setLangTotal (initState env) targets.length) vr.valid.length
  let st := log st "Starting translation process..."
  let st := log st ("Source: " ++ config.sourceLanguage ++ " -> Target: " ++
    String.intercalate ", " targets)
  if 0 < vr.errors.length then promptGate env config targets vr st
  else runLoop env config targets vr st

/-- The `run` method (src/index.js:307): a configuration-load failure is
logged and exits with status 1 (src/index.js:79). -/
def run (env : Env) : RunResult :=
  match env.configLoad with
  | Except.error message =>
      RunResult.exited 1 (log (initState env) ("Error loading project config: " ++ message))
  | Except.ok config => runWithConfig env config

/-! ### Basic projection lemmas for the state helpers -/

@[simp] theorem stats_log (st : RunState) (t : String) : (log st t).stats = st.stats := rfl

@[simp] theorem fs_log (st : RunState) (t : String) : (log st t).fs = st.fs := rfl

@[simp] theorem apiCalls_log (st : RunState) (t : String) : (log st t).apiCalls = st.apiCalls := rfl

@[simp] theorem statsHistory_log (st : RunState) (t : String) :
    (log st t).statsHistory = st.statsHistory := rfl

@[simp] theorem trace_log (st : RunState) (t : String) :
    (log st t).trace = st.trace ++ [Event.log t] := rfl

@[simp] theorem stats_show (st : RunState) (a b : String) :
    (showCombinedProgress st a b).stats = st.stats := rfl

@[simp] theorem fs_show (st : RunState) (a b : String) :
    (showCombinedProgress st a b).fs = st.fs := rfl

@[simp] theorem apiCalls_show (st : RunState) (a b : String) :
    (showCombinedProgress st a b).apiCalls = st.apiCalls := rfl

@[simp] theorem statsHistory_show (st : RunState) (a b : String) :
    (showCombinedProgress st a b).statsHistory = st.statsHistory := rfl

@[simp] theorem trace_show (st : RunState) (a b : String) :
    (showCombinedProgress st a b).trace = st.trace ++ [Event.progress a b] := rfl

@[simp] theorem stats_writeJson (st : RunState) (p : String) (c : Json) :
    (writeJson st p c).stats = st.stats := rfl

@[simp] theorem statsHistory_writeJson (st : RunState) (p : String) (c : Json) :
    (writeJson st p c).statsHistory = st.statsHistory := rfl

@[simp] theorem fs_writeJson (st : RunState) (p : String) (c : Json) :
    (writeJson st p c).fs = (p, FileData.json c) :: st.fs := rfl

@[simp] theorem stats_pushStats (st : RunState) (s : Stats) : (pushStats st s).stats = s := rfl

@[simp] theorem fs_pushStats (st : RunState) (s : Stats) : (pushStats st s).fs = st.fs := rfl

@[simp] theorem statsHistory_pushStats (st : RunState) (s : Stats) :
    (pushStats st s).statsHistory = st.statsHistory ++ [s] := rfl

/-! ### Effect lemmas for `translateJson` and `processNamespaceFile` -/

theorem translateJson_snd_stats (env : Env) (st : RunState) (j : Json) (l : String) :
    (translateJson env st j l).2.stats = st.stats := by
  unfold translateJson apiCreate
  cases h : env.api st.apiCalls (buildTranslationPrompt env j l) with
  | throwErr m => simp [h]
  | ok c => cases hp : env.parse (strTrim c) <;> simp [h, hp]

theorem translateJson_snd_fs (env : Env) (st : RunState) (j : Json) (l : String) :
    (translateJson env st j l).2.fs = st.fs := by
  unfold translateJson apiCreate
  cases h : env.api st.apiCalls (buildTranslationPrompt env j l) with
  | throwErr m => simp [h]
  | ok c => cases hp : env.parse (strTrim c) <;> simp [h, hp]

theorem translateJson_snd_statsHistory (env : Env) (st : RunState) (j : Json) (l : String) :
    (translateJson env st j l).2.statsHistory = st.statsHistory := by
  unfold translateJson apiCreate
  cases h : env.api st.apiCalls (buildTranslationPrompt env j l) with
  | throwErr m => simp [h]
  | ok c => cases hp : env.parse (strTrim c) <;> simp [h, hp]

/-- The translation result depends on the state only through the number
of API calls already made. -/
theorem translateJson_fst_congr (env : Env) (st st2 : RunState) (j : Json) (l : String)
    (h : st.apiCalls = st2.apiCalls) :
    (translateJson env st j l).1 = (translateJson env st2 j l).1 := by
  unfold translateJson apiCreate
  rw [h]
  cases ha : env.api st2.apiCalls (buildTranslationPrompt env j l) with
  | throwErr m => simp [ha]
  | ok c => cases hp : env.parse (strTrim c) <;> simp [ha, hp]

/-- A missing source file fails the pair and leaves the state untouched. -/
theorem processNamespaceFile_missing (env : Env) (st : RunState) (sd td file : String)
    (h : fsLookup st.fs (getFilePath sd file) = none) :
    processNamespaceFile env st sd td file = (false, st) := by
  simp only [processNamespaceFile]
  rw [h]

/-- An empty adapter result fails the pair; the state is the translation
state (one API call and a possible log, nothing else). -/
theorem processNamespaceFile_empty (env : Env) (st : RunState) (sd td file : String) (j : Json)
    (hsrc : fsLookup st.fs (getFilePath sd file) = some (FileData.json j))
    (hempty : (translateJson env st j (basename td)).1 = Json.obj []) :
    processNamespaceFile env st sd td file = (false, (translateJson env st j (basename td)).2) := by
  simp only [processNamespaceFile]
  rw [hsrc]
  dsimp only
  rw [hempty]
  simp [objectKeys]

/-- `processNamespaceFile` never touches the statistics. -/
theorem processNamespaceFile_snd_stats (env : Env) (st : RunState) (sd td file : String) :
    (processNamespaceFile env st sd td file).2.stats = st.stats := by
  simp only [processNamespaceFile]
  cases h : fsLookup st.fs (getFilePath sd file) with
  | none => simp
  | some fd =>
    cases fd with
    | invalid => simp
    | json j =>
      simp only []
      cases hk : objectKeys (translateJson env st j (basename td)).1 with
      | error e => simp [translateJson_snd_stats]
      | ok keys =>
        by_cases hl : 0 < keys.length <;> simp [hl, translateJson_snd_stats]

/-- `processNamespaceFile` never records a statistics mutation. -/
theorem processNamespaceFile_snd_statsHistory (env : Env) (st : RunState) (sd td file : String) :
    (processNamespaceFile env st sd td file).2.statsHistory = st.statsHistory := by
  simp only [processNamespaceFile]
  cases h : fsLookup st.fs (getFilePath sd file) with
  | none => simp
  | some fd =>
    cases fd with
    | invalid => simp
    | json j =>
      simp only []
      cases hk : objectKeys (translateJson env st j (basename td)).1 with
      | error e => simp [translateJson_snd_statsHistory]
      | ok keys =>
        by_cases hl : 0 < keys.length <;> simp [hl, translateJson_snd_statsHistory]

/-! ### String suffix lemmas for `getFilePath` -/

theorem isPrefixOf_append_right (l t : List Char) : l.isPrefixOf (l ++ t) = true := by
  induction l with
  | nil => simp
  | cons a l ih => simp [List.isPrefixOf_cons₂, ih]

theorem strEndsWith_append (s t : String) : strEndsWith (s ++ t) t = true := by
  unfold strEndsWith
  have hd : (s ++ t).data = s.data ++ t.data := rfl
  rw [hd, List.reverse_append]
  exact isPrefixOf_append_right _ _

/-! ### Concrete environments used by witnesses and counterexamples -/

/-- A small source document. -/
def testObj : Json := Json.obj [("k", Json.str "v")]

/-- A run with two target languages, one namespace, no CLI options, and
every platform call succeeding. -/
def envOkNoOpts : Env :=
  { options := { language := "", «namespace» := none, config := "localiser.json" }
  , configLoad := Except.ok
      { directory := "d", sourceLanguage := "en"
      , languages := ["en", "fr", "de"], namespaces := ["home"] }
  , fs0 := [("d/en/home.json", FileData.json testObj)]
  , api := fun _ _ => ApiOutcome.ok "resp"
  , parse := fun _ => Except.ok (Json.obj [("k", Json.str "tr")])
  , stringify := fun _ => "S"
  , answer := "" }

/-- An environment whose adapter produces an empty mapping. -/
def c5wEnv : Env :=
  { options := { language := "", «namespace» := none, config := "localiser.json" }
  , configLoad := Except.ok
      { directory := "d", sourceLanguage := "en"
      , languages := ["en", "fr"], namespaces := ["home"] }
  , fs0 := [("s/f.json", FileData.json testObj)]
  , api := fun _ _ => ApiOutcome.ok "resp"
  , parse := fun _ => Except.ok (Json.obj [])
  , stringify := fun _ => "S"
  , answer := "" }

/-- An environment whose API request always throws. -/
def c6wEnv : Env :=
  { options := { language := "", «namespace» := none, config := "localiser.json" }
  , configLoad := Except.ok
      { directory := "d", sourceLanguage := "en"
      , languages := ["en", "fr"], namespaces := ["home"] }
  , fs0 := []
  , api := fun _ _ => ApiOutcome.throwErr "boom"
  , parse := fun _ => Except.ok (Json.obj [("t", Json.str "x")])
  , stringify := fun _ => "S"
  , answer := "" }

/-- An environment whose adapter produces a non-empty mapping. -/
def c8wEnv : Env :=
  { options := { language := "", «namespace» := none, config := "localiser.json" }
  , configLoad := Except.ok
      { directory := "d", sourceLanguage := "en"
      , languages := ["en", "fr"], namespaces := ["home"] }
  , fs0 := [("s/f.json", FileData.json testObj)]
  , api := fun _ _ => ApiOutcome.ok "resp"
  , parse := fun _ => Except.ok (Json.obj [("t", Json.str "x")])
  , stringify := fun _ => "S"
  , answer := "" }

/-! ### Claim C10 -/

/-- C10: for every directory and name, `getFilePath` returns a path ending
in `.json`; if the joined path already ends in `.json` it is returned
unchanged, and applying the extension rule to the output of `getFilePath`
leaves it unchanged (idempotence). -/
theorem claim_C10 (directory ns : String) :
    strEndsWith (getFilePath directory ns) ".json" = true
    ∧ (strEndsWith (pathJoin directory ns) ".json" = true →
        getFilePath directory ns = pathJoin directory ns)
    ∧ ensureJsonExt (getFilePath directory ns) = getFilePath directory ns := by
  have hends : strEndsWith (getFilePath directory ns) ".json" = true := by
    unfold getFilePath
    dsimp only
    by_cases h : strEndsWith (pathJoin directory ns) ".json" = true
    · rw [if_pos h]; exact h
    · rw [if_neg h]; exact strEndsWith_append _ _
  refine ⟨hends, ?_, ?_⟩
  · intro h
    unfold getFilePath
    dsimp only
    rw [if_pos h]
  · unfold ensureJsonExt
    rw [if_pos hends]

/-- Witness for C10 at directory `dir` and name `home.json`: the joined
path already ends in `.json`, so it is returned unchanged. -/
theorem claim_C10_witness :
    strEndsWith (getFilePath "dir" "home.json") ".json" = true
    ∧ getFilePath "dir" "home.json" = pathJoin "dir" "home.json"
    ∧ ensureJsonExt (getFilePath "dir" "home.json") = getFilePath "dir" "home.json" :=
  ⟨(claim_C10 "dir" "home.json").1,
   (claim_C10 "dir" "home.json").2.1 (by decide),
   (claim_C10 "dir" "home.json").2.2⟩

/-! ### Claim C4 -/

/-- C4: when the source file of a (language, namespace) pair does not
exist, `processNamespaceFile` returns failure and leaves the state (file
system included) untouched, and the surrounding loop counts the pair by
incrementing exactly the namespaces `failed` counter, with the file
system still unchanged (no target file written). -/
theorem claim_C4 (env : Env) (st : RunState)
    (sourceLanguageDir targetLanguageDir targetLanguage file : String) (rest : List String)
    (h : fsLookup st.fs (getFilePath sourceLanguageDir file) = none) :
    processNamespaceFile env st sourceLanguageDir targetLanguageDir file = (false, st)
    ∧ filesLoop env sourceLanguageDir targetLanguageDir targetLanguage (file :: rest) st
        = filesLoop env sourceLanguageDir targetLanguageDir targetLanguage rest
            (incNsFailed (showCombinedProgress st targetLanguage (replaceFirst file ".json")))
    ∧ (incNsFailed (showCombinedProgress st targetLanguage
        (replaceFirst file ".json"))).stats.namespaces.failed
        = st.stats.namespaces.failed + 1
    ∧ (incNsFailed (showCombinedProgress st targetLanguage
        (replaceFirst file ".json"))).stats.namespaces.completed
        = st.stats.namespaces.completed
    ∧ (incNsFailed (showCombinedProgress st targetLanguage
        (replaceFirst file ".json"))).fs = st.fs := by
  have h1 := processNamespaceFile_missing env st sourceLanguageDir targetLanguageDir file h
  have h1s : processNamespaceFile env
      (showCombinedProgress st targetLanguage (replaceFirst file ".json"))
      sourceLanguageDir targetLanguageDir file
      = (false, showCombinedProgress st targetLanguage (replaceFirst file ".json")) :=
    processNamespaceFile_missing _ _ _ _ _ (by simpa using h)
  refine ⟨h1, ?_, rfl, rfl, rfl⟩
  simp only [filesLoop]
  rw [h1s]
  simp

/-- Witness for C4: in the initial state of `envOkNoOpts` no file exists
under `nope/`, so the pair fails with the state unchanged. -/
theorem claim_C4_witness :
    fsLookup (initState envOkNoOpts).fs (getFilePath "nope" "x") = none
    ∧ processNamespaceFile envOkNoOpts (initState envOkNoOpts) "nope" "t" "x"
        = (false, initState envOkNoOpts) :=
  ⟨rfl, (claim_C4 envOkNoOpts (initState envOkNoOpts) "nope" "t" "fr" "x" [] rfl).1⟩

/-! ### Claim C5 -/

/-- C5: when the translation adapter returns the empty mapping for a
pair, the file processor writes no target file (the file system is
unchanged), returns false, and the surrounding loop increments exactly
the namespaces `failed` counter. -/
theorem claim_C5 (env : Env) (st : RunState)
    (sourceLanguageDir targetLanguageDir targetLanguage file : String) (rest : List String)
    (j : Json)
    (hsrc : fsLookup st.fs (getFilePath sourceLanguageDir file) = some (FileData.json j))
    (hempty : (translateJson env st j (basename targetLanguageDir)).1 = Json.obj []) :
    processNamespaceFile env st sourceLanguageDir targetLanguageDir file
      = (false, (translateJson env st j (basename targetLanguageDir)).2)
    ∧ (translateJson env st j (basename targetLanguageDir)).2.fs = st.fs
    ∧ filesLoop env sourceLanguageDir targetLanguageDir targetLanguage (file :: rest) st
        = filesLoop env sourceLanguageDir targetLanguageDir targetLanguage rest
            (incNsFailed (translateJson env
              (showCombinedProgress st targetLanguage (replaceFirst file ".json"))
              j (basename targetLanguageDir)).2)
    ∧ (∀ x : RunState, (incNsFailed x).stats.namespaces.failed = x.stats.namespaces.failed + 1
        ∧ (incNsFailed x).stats.namespaces.completed = x.stats.namespaces.completed
        ∧ (incNsFailed x).fs = x.fs)
    ∧ (translateJson env (showCombinedProgress st targetLanguage (replaceFirst file ".json"))
        j (basename targetLanguageDir)).2.fs = st.fs := by
  have h1 := processNamespaceFile_empty env st sourceLanguageDir targetLanguageDir file j hsrc hempty
  have hsrc1 : fsLookup (showCombinedProgress st targetLanguage (replaceFirst file ".json")).fs
      (getFilePath sourceLanguageDir file) = some (FileData.json j) := by
    simpa using hsrc
  have hempty1 : (translateJson env
      (showCombinedProgress st targetLanguage (replaceFirst file ".json"))
      j (basename targetLanguageDir)).1 = Json.obj [] := by
    rw [translateJson_fst_congr env _ st j (basename targetLanguageDir) (by simp)]
    exact hempty
  have h2 := processNamespaceFile_empty env
    (showCombinedProgress st targetLanguage (replaceFirst file ".json"))
    sourceLanguageDir targetLanguageDir file j hsrc1 hempty1
  refine ⟨h1, translateJson_snd_fs env st j (basename targetLanguageDir), ?_,
    fun x => ⟨rfl, rfl, rfl⟩, ?_⟩
  · simp only [filesLoop]
    rw [h2]
    simp
  · rw [translateJson_snd_fs]
    simp

/-- Witness for C5: with `c5wEnv` the adapter parses to the empty object,
so the pair fails and nothing is written. -/
theorem claim_C5_witness :
    (translateJson c5wEnv (initState c5wEnv) testObj (basename "t")).1 = Json.obj []
    ∧ processNamespaceFile c5wEnv (initState c5wEnv) "s" "t" "f"
        = (false, (translateJson c5wEnv (initState c5wEnv) testObj (basename "t")).2) :=
  ⟨rfl, (claim_C5 c5wEnv (initState c5wEnv) "s" "t" "fr" "f" [] testObj rfl rfl).1⟩

/-! ### Claim C6 -/

/-- C6: on a request failure, and likewise on a JSON-parse failure of the
response, `translateJson` logs an error and returns the empty mapping,
having made exactly one API call (no retry) and changed nothing else in
the state; the function is total, so no exception reaches its caller. -/
theorem claim_C6 (env : Env) (st : RunState) (jsonObject : Json) (targetLang : String) :
    (∀ m, env.api st.apiCalls (buildTranslationPrompt env jsonObject targetLang)
        = ApiOutcome.throwErr m →
      translateJson env st jsonObject targetLang
        = (Json.obj [], { st with apiCalls := st.apiCalls + 1,
                                  trace := st.trace ++ [Event.apiCall,
                                    Event.log ("Translation error for " ++ targetLang ++ ": " ++ m)] }))
    ∧ (∀ c e, env.api st.apiCalls (buildTranslationPrompt env jsonObject targetLang)
        = ApiOutcome.ok c →
        env.parse (strTrim c) = Except.error e →
      translateJson env st jsonObject targetLang
        = (Json.obj [], { st with apiCalls := st.apiCalls + 1,
                                  trace := st.trace ++ [Event.apiCall,
                                    Event.log ("Failed to parse translation response: " ++ e)] })) := by
  constructor
  · intro m hm
    unfold translateJson apiCreate
    dsimp only
    rw [hm]
    simp [log]
  · intro c e hc he
    unfold translateJson apiCreate
    dsimp only
    rw [hc]
    dsimp only
    rw [he]
    simp [log]

/-- Witness for C6: with an always-throwing API, the adapter returns the
empty object and logs the translation error after its single call. -/
theorem claim_C6_witness :
    translateJson c6wEnv (initState c6wEnv) testObj "fr"
      = (Json.obj [], { initState c6wEnv with
                          apiCalls := (initState c6wEnv).apiCalls + 1,
                          trace := (initState c6wEnv).trace ++ [Event.apiCall,
                            Event.log ("Translation error for " ++ "fr" ++ ": " ++ "boom")] }) :=
  (claim_C6 c6wEnv (initState c6wEnv) testObj "fr").1 "boom" rfl

/-! ### Claim C8 -/

/-- C8: whenever the file processor writes a target file, it writes
exactly the adapter's result for the source file to the target path
(full overwrite: the target entry afterwards is exactly that content),
and the written content does not depend on the file system, in
particular not on any pre-existing content of the target file. -/
theorem claim_C8 (env : Env) (st : RunState) (sourceLanguageDir targetLanguageDir file : String)
    (j : Json) (ks : List String)
    (hsrc : fsLookup st.fs (getFilePath sourceLanguageDir file) = some (FileData.json j))
    (hkeys : objectKeys (translateJson env st j (basename targetLanguageDir)).1 = Except.ok ks)
    (hlen : 0 < ks.length) :
    processNamespaceFile env st sourceLanguageDir targetLanguageDir file
      = (true, writeJson (translateJson env st j (basename targetLanguageDir)).2
          (getFilePath targetLanguageDir file)
          (translateJson env st j (basename targetLanguageDir)).1)
    ∧ fsLookup (writeJson (translateJson env st j (basename targetLanguageDir)).2
          (getFilePath targetLanguageDir file)
          (translateJson env st j (basename targetLanguageDir)).1).fs
        (getFilePath targetLanguageDir file)
      = some (FileData.json (translateJson env st j (basename targetLanguageDir)).1)
    ∧ (∀ fs2 : FS, (translateJson env { st with fs := fs2 } j (basename targetLanguageDir)).1
        = (translateJson env st j (basename targetLanguageDir)).1) := by
  refine ⟨?_, ?_, fun fs2 => translateJson_fst_congr env _ st j (basename targetLanguageDir) rfl⟩
  · simp only [processNamespaceFile]
    rw [hsrc]
    dsimp only
    rw [hkeys]
    dsimp only
    rw [if_pos hlen]
  · simp [writeJson, fsLookup]

/-- Witness for C8: with `c8wEnv` the source file exists and the adapter
result has one key, so the pair succeeds with the write. -/
theorem claim_C8_witness :
    processNamespaceFile c8wEnv (initState c8wEnv) "s" "t" "f"
      = (true, writeJson (translateJson c8wEnv (initState c8wEnv) testObj (basename "t")).2
          (getFilePath "t" "f")
          (translateJson c8wEnv (initState c8wEnv) testObj (basename "t")).1) :=
  (claim_C8 c8wEnv (initState c8wEnv) "s" "t" "f" testObj ["t"] rfl rfl (by decide)).1

/-! ### Counting lemmas for the per-file loop -/

theorem filesLoop_cons (env : Env) (sd td tl file : String) (rest : List String) (st : RunState) :
    filesLoop env sd td tl (file :: rest) st
      = filesLoop env sd td tl rest
          (if (processNamespaceFile env (showCombinedProgress st tl (replaceFirst file ".json"))
                sd td file).1
           then incNsCompleted (processNamespaceFile env
                  (showCombinedProgress st tl (replaceFirst file ".json")) sd td file).2
           else incNsFailed (processNamespaceFile env
                  (showCombinedProgress st tl (replaceFirst file ".json")) sd td file).2) := rfl

/-- One pass of the per-file loop adds exactly one namespace count per
file: languages and the namespaces total are untouched, completed plus
failed grows by the number of files, and failed is monotone and bounded
by the number of files. -/
theorem filesLoop_counts (env : Env) (sd td tl : String) :
    ∀ (files : List String) (st : RunState),
      (filesLoop env sd td tl files st).stats.languages = st.stats.languages
      ∧ (filesLoop env sd td tl files st).stats.namespaces.total = st.stats.namespaces.total
      ∧ (filesLoop env sd td tl files st).stats.namespaces.completed
          + (filesLoop env sd td tl files st).stats.namespaces.failed
          = st.stats.namespaces.completed + st.stats.namespaces.failed + files.length
      ∧ st.stats.namespaces.failed ≤ (filesLoop env sd td tl files st).stats.namespaces.failed
      ∧ (filesLoop env sd td tl files st).stats.namespaces.failed
          ≤ st.stats.namespaces.failed + files.length := by
  intro files
  induction files with
  | nil => intro st; simp [filesLoop]
  | cons file rest ih =>
    intro st
    rw [filesLoop_cons]
    set X := processNamespaceFile env (showCombinedProgress st tl (replaceFirst file ".json"))
      sd td file with hX
    have hx : X.2.stats = st.stats := by
      rw [hX, processNamespaceFile_snd_stats]; simp
    cases hr : X.1
    · rw [if_neg (by simp [hr])]
      have h1 : (incNsFailed X.2).stats.languages = st.stats.languages := by
        simp [incNsFailed, pushStats, hx]
      have h2 : (incNsFailed X.2).stats.namespaces.total = st.stats.namespaces.total := by
        simp [incNsFailed, pushStats, hx]
      have h3 : (incNsFailed X.2).stats.namespaces.completed = st.stats.namespaces.completed := by
        simp [incNsFailed, pushStats, hx]
      have h4 : (incNsFailed X.2).stats.namespaces.failed = st.stats.namespaces.failed + 1 := by
        simp [incNsFailed, pushStats, hx]
      obtain ⟨ih1, ih2, ih3, ih4, ih5⟩ := ih (incNsFailed X.2)
      refine ⟨by rw [ih1, h1], by rw [ih2, h2], ?_, ?_, ?_⟩
      · rw [ih3, h3, h4, List.length_cons]; omega
      · rw [h4] at ih4; omega
      · rw [h4] at ih5; rw [List.length_cons]; omega
    · rw [if_pos (by simp [hr])]
      have h1 : (incNsCompleted X.2).stats.languages = st.stats.languages := by
        simp [incNsCompleted, pushStats, hx]
      have h2 : (incNsCompleted X.2).stats.namespaces.total = st.stats.namespaces.total := by
        simp [incNsCompleted, pushStats, hx]
      have h3 : (incNsCompleted X.2).stats.namespaces.completed
          = st.stats.namespaces.completed + 1 := by
        simp [incNsCompleted, pushStats, hx]
      have h4 : (incNsCompleted X.2).stats.namespaces.failed = st.stats.namespaces.failed := by
        simp [incNsCompleted, pushStats, hx]
      obtain ⟨ih1, ih2, ih3, ih4, ih5⟩ := ih (incNsCompleted X.2)
      refine ⟨by rw [ih1, h1], by rw [ih2, h2], ?_, ?_, ?_⟩
      · rw [ih3, h3, h4, List.length_cons]; omega
      · rw [h4] at ih4; omega
      · rw [h4] at ih5; rw [List.length_cons]; omega

/-- Every statistics snapshot recorded by the per-file loop either was
already recorded, or has the entry languages group, the entry namespaces
total, and a namespaces count bounded by the entry count plus the number
of files. -/
theorem filesLoop_history (env : Env) (sd td tl : String) :
    ∀ (files : List String) (st : RunState) (s : Stats),
      s ∈ (filesLoop env sd td tl files st).statsHistory →
      s ∈ st.statsHistory
      ∨ (s.languages = st.stats.languages
         ∧ s.namespaces.total = st.stats.namespaces.total
         ∧ s.namespaces.completed + s.namespaces.failed
             ≤ st.stats.namespaces.completed + st.stats.namespaces.failed + files.length) := by
  intro files
  induction files with
  | nil =>
    intro st s hs
    exact Or.inl (by simpa [filesLoop] using hs)
  | cons file rest ih =>
    intro st s hs
    rw [filesLoop_cons] at hs
    set X := processNamespaceFile env (showCombinedProgress st tl (replaceFirst file ".json"))
      sd td file with hX
    have hx : X.2.stats = st.stats := by
      rw [hX, processNamespaceFile_snd_stats]; simp
    have hxh : X.2.statsHistory = st.statsHistory := by
      rw [hX, processNamespaceFile_snd_statsHistory]; simp
    cases hr : X.1
    · rw [if_neg (by simp [hr])] at hs
      have h1 : (incNsFailed X.2).stats.languages = st.stats.languages := by
        simp [incNsFailed, pushStats, hx]
      have h2 : (incNsFailed X.2).stats.namespaces.total = st.stats.namespaces.total := by
        simp [incNsFailed, pushStats, hx]
      have h3 : (incNsFailed X.2).stats.namespaces.completed = st.stats.namespaces.completed := by
        simp [incNsFailed, pushStats, hx]
      have h4 : (incNsFailed X.2).stats.namespaces.failed = st.stats.namespaces.failed + 1 := by
        simp [incNsFailed, pushStats, hx]
      have hhist : (incNsFailed X.2).statsHistory
          = st.statsHistory ++ [(incNsFailed X.2).stats] := by
        simp [incNsFailed, pushStats, hxh]
      rcases ih (incNsFailed X.2) s hs with hmem | hbound
      · rw [hhist] at hmem
        rcases List.mem_append.mp hmem with h | h
        · exact Or.inl h
        · refine Or.inr ?_
          have hseq : s = (incNsFailed X.2).stats := List.mem_singleton.mp h
          rw [hseq, h1, h2, h3, h4]
          refine ⟨rfl, rfl, ?_⟩
          rw [List.length_cons]; omega
      · refine Or.inr ?_
        obtain ⟨hb1, hb2, hb3⟩ := hbound
        rw [h1] at hb1
        rw [h2] at hb2
        rw [h3, h4] at hb3
        refine ⟨hb1, hb2, ?_⟩
        rw [List.length_cons]; omega
    · rw [if_pos (by simp [hr])] at hs
      have h1 : (incNsCompleted X.2).stats.languages = st.stats.languages := by
        simp [incNsCompleted, pushStats, hx]
      have h2 : (incNsCompleted X.2).stats.namespaces.total = st.stats.namespaces.total := by
        simp [incNsCompleted, pushStats, hx]
      have h3 : (incNsCompleted X.2).stats.namespaces.completed
          = st.stats.namespaces.completed + 1 := by
        simp [incNsCompleted, pushStats, hx]
      have h4 : (incNsCompleted X.2).stats.namespaces.failed = st.stats.namespaces.failed := by
        simp [incNsCompleted, pushStats, hx]
      have hhist : (incNsCompleted X.2).statsHistory
          = st.statsHistory ++ [(incNsCompleted X.2).stats] := by
        simp [incNsCompleted, pushStats, hxh]
      rcases ih (incNsCompleted X.2) s hs with hmem | hbound
      · rw [hhist] at hmem
        rcases List.mem_append.mp hmem with h | h
        · exact Or.inl h
        · refine Or.inr ?_
          have hseq : s = (incNsCompleted X.2).stats := List.mem_singleton.mp h
          rw [hseq, h1, h2, h3, h4]
          refine ⟨rfl, rfl, ?_⟩
          rw [List.length_cons]; omega
      · refine Or.inr ?_
        obtain ⟨hb1, hb2, hb3⟩ := hbound
        rw [h1] at hb1
        rw [h2] at hb2
        rw [h3, h4] at hb3
        refine ⟨hb1, hb2, ?_⟩
        rw [List.length_cons]; omega

/-! ### Counting lemmas for the per-language loop -/

theorem processLocale_fst (env : Env) (cfg : Config) (st : RunState) (src tl : String)
    (nso : Option (List String)) :
    (processLocale env cfg st src tl nso).1
      = ((processLocale env cfg st src tl nso).2.stats.namespaces.completed
          == (processLocale env cfg st src tl nso).2.stats.namespaces.total) := rfl

theorem processLocale_snd (env : Env) (cfg : Config) (st : RunState) (src tl : String)
    (nso : Option (List String)) :
    (processLocale env cfg st src tl nso).2
      = filesLoop env (pathJoin cfg.directory src) (pathJoin cfg.directory tl) tl
          ((localeNamespaces cfg nso).map (fun ns => ns ++ ".json")) st := rfl

theorem langLoop_cons_supported (env : Env) (cfg : Config) (language : String)
    (rest : List String) (st : RunState) (h : cfg.languages.contains language = true) :
    langLoop env cfg (language :: rest) st
      = langLoop env cfg rest (showCombinedProgress
          (if (processLocale env cfg st cfg.sourceLanguage language env.options.«namespace»).1
           then incLangCompleted (processLocale env cfg st cfg.sourceLanguage language
                  env.options.«namespace»).2
           else incLangFailed (processLocale env cfg st cfg.sourceLanguage language
                  env.options.«namespace»).2)
          language "completed") := by
  simp only [langLoop, h]
  simp

theorem langLoop_cons_unsupported (env : Env) (cfg : Config) (language : String)
    (rest : List String) (st : RunState) (h : cfg.languages.contains language = false) :
    langLoop env cfg (language :: rest) st
      = langLoop env cfg rest (incLangFailed (log st ("Unsupported language: " ++ language))) := by
  simp only [langLoop, h]
  simp

/-- The per-language loop adds exactly one language count per language,
and one namespace count per (supported language, namespace-file) pair;
both totals are untouched and the namespaces failed counter is
monotone. -/
theorem langLoop_counts (env : Env) (cfg : Config) :
    ∀ (langs : List String) (st : RunState),
      (langLoop env cfg langs st).stats.languages.total = st.stats.languages.total
      ∧ (langLoop env cfg langs st).stats.namespaces.total = st.stats.namespaces.total
      ∧ (langLoop env cfg langs st).stats.languages.completed
          + (langLoop env cfg langs st).stats.languages.failed
          = st.stats.languages.completed + st.stats.languages.failed + langs.length
      ∧ (langLoop env cfg langs st).stats.namespaces.completed
          + (langLoop env cfg langs st).stats.namespaces.failed
          = st.stats.namespaces.completed + st.stats.namespaces.failed
            + (langs.filter (fun l => cfg.languages.contains l)).length
              * (localeNamespaces cfg env.options.«namespace»).length
      ∧ st.stats.namespaces.failed ≤ (langLoop env cfg langs st).stats.namespaces.failed := by
  intro langs
  induction langs with
  | nil => intro st; simp [langLoop]
  | cons language rest ih =>
    intro st
    cases hsup : cfg.languages.contains language
    · rw [langLoop_cons_unsupported env cfg language rest st hsup]
      have hz1 : (incLangFailed (log st ("Unsupported language: " ++ language))).stats.languages.total
          = st.stats.languages.total := by
        simp [incLangFailed, pushStats]
      have hz2 : (incLangFailed (log st
          ("Unsupported language: " ++ language))).stats.languages.completed
          = st.stats.languages.completed := by
        simp [incLangFailed, pushStats]
      have hz3 : (incLangFailed (log st ("Unsupported language: " ++ language))).stats.languages.failed
          = st.stats.languages.failed + 1 := by
        simp [incLangFailed, pushStats]
      have hz4 : (incLangFailed (log st ("Unsupported language: " ++ language))).stats.namespaces
          = st.stats.namespaces := by
        simp [incLangFailed, pushStats]
      obtain ⟨ih1, ih2, ih3, ih4, ih5⟩ := ih (incLangFailed (log st
        ("Unsupported language: " ++ language)))
      rw [List.filter_cons_of_neg (by show ¬(cfg.languages.contains language = true); rw [hsup]; simp)]
      refine ⟨by rw [ih1, hz1], by rw [ih2, hz4], ?_, ?_, ?_⟩
      · rw [ih3, hz2, hz3, List.length_cons]; omega
      · rw [ih4, hz4]
      · rw [hz4] at ih5; exact ih5
    · rw [langLoop_cons_supported env cfg language rest st hsup]
      set P := processLocale env cfg st cfg.sourceLanguage language env.options.«namespace» with hP
      obtain ⟨f1, f2, f3, f4, f5⟩ := filesLoop_counts env (pathJoin cfg.directory cfg.sourceLanguage)
        (pathJoin cfg.directory language) language
        ((localeNamespaces cfg env.options.«namespace»).map (fun ns => ns ++ ".json")) st
      rw [← processLocale_snd env cfg st cfg.sourceLanguage language env.options.«namespace», ← hP]
        at f1 f2 f3 f4 f5
      rw [List.length_map] at f3 f5
      set Y := showCombinedProgress
        (if P.1 then incLangCompleted P.2 else incLangFailed P.2) language "completed" with hY
      have hYns : Y.stats.namespaces = P.2.stats.namespaces := by
        rw [hY]; cases P.1 <;> simp [incLangCompleted, incLangFailed, pushStats]
      have hYlt : Y.stats.languages.total = P.2.stats.languages.total := by
        rw [hY]; cases P.1 <;> simp [incLangCompleted, incLangFailed, pushStats]
      have hYls : Y.stats.languages.completed + Y.stats.languages.failed
          = P.2.stats.languages.completed + P.2.stats.languages.failed + 1 := by
        rw [hY]; cases P.1 <;> simp [incLangCompleted, incLangFailed, pushStats] <;> omega
      obtain ⟨ih1, ih2, ih3, ih4, ih5⟩ := ih Y
      refine ⟨?_, ?_, ?_, ?_, ?_⟩
      · rw [ih1, hYlt, f1]
      · rw [ih2, hYns, f2]
      · rw [ih3, hYls, f1, List.length_cons]; omega
      · rw [ih4, hYns,
          List.filter_cons_of_pos (by show cfg.languages.contains language = true; exact hsup),
          List.length_cons, add_one_mul]
        have hsum := f3
        generalize (List.filter (fun l => cfg.languages.contains l) rest).length
          * (localeNamespaces cfg env.options.«namespace»).length = q
        omega
      · rw [hYns] at ih5
        omega

/-- Every statistics snapshot recorded by the per-language loop either
was already recorded, or keeps both entry totals, with the language
count bounded by the entry count plus the number of languages and the
namespace count bounded by the entry count plus one namespace-list worth
per supported language. -/
theorem langLoop_history (env : Env) (cfg : Config) :
    ∀ (langs : List String) (st : RunState) (s : Stats),
      s ∈ (langLoop env cfg langs st).statsHistory →
      s ∈ st.statsHistory
      ∨ (s.languages.total = st.stats.languages.total
         ∧ s.languages.completed + s.languages.failed
             ≤ st.stats.languages.completed + st.stats.languages.failed + langs.length
         ∧ s.namespaces.total = st.stats.namespaces.total
         ∧ s.namespaces.completed + s.namespaces.failed
             ≤ st.stats.namespaces.completed + st.stats.namespaces.failed
               + (langs.filter (fun l => cfg.languages.contains l)).length
                 * (localeNamespaces cfg env.options.«namespace»).length) := by
  intro langs
  induction langs with
  | nil =>
    intro st s hs
    exact Or.inl (by simpa [langLoop] using hs)
  | cons language rest ih =>
    intro st s hs
    cases hsup : cfg.languages.contains language
    · rw [langLoop_cons_unsupported env cfg language rest st hsup] at hs
      rw [List.filter_cons_of_neg (by show ¬(cfg.languages.contains language = true); rw [hsup]; simp)]
      have hz2 : (incLangFailed (log st
          ("Unsupported language: " ++ language))).stats.languages.completed
          = st.stats.languages.completed := by
        simp [incLangFailed, pushStats]
      have hz3 : (incLangFailed (log st ("Unsupported language: " ++ language))).stats.languages.failed
          = st.stats.languages.failed + 1 := by
        simp [incLangFailed, pushStats]
      have hz1 : (incLangFailed (log st ("Unsupported language: " ++ language))).stats.languages.total
          = st.stats.languages.total := by
        simp [incLangFailed, pushStats]
      have hz4 : (incLangFailed (log st ("Unsupported language: " ++ language))).stats.namespaces
          = st.stats.namespaces := by
        simp [incLangFailed, pushStats]
      have hzh : (incLangFailed (log st ("Unsupported language: " ++ language))).statsHistory
          = st.statsHistory
            ++ [(incLangFailed (log st ("Unsupported language: " ++ language))).stats] := by
        simp [incLangFailed, pushStats]
      rcases ih _ s hs with hmem | hbound
      · rw [hzh] at hmem
        rcases List.mem_append.mp hmem with h | h
        · exact Or.inl h
        · refine Or.inr ?_
          have hseq := List.mem_singleton.mp h
          constructor
          · rw [hseq, hz1]
          constructor
          · rw [hseq, hz2, hz3, List.length_cons]; omega
          constructor
          · rw [hseq]; rw [hz4]
          · rw [hseq, hz4]; exact Nat.le_add_right _ _
      · obtain ⟨hb1, hb2, hb3, hb4⟩ := hbound
        rw [hz1] at hb1
        rw [hz2, hz3] at hb2
        rw [hz4] at hb3 hb4
        refine Or.inr ⟨hb1, ?_, hb3, hb4⟩
        rw [List.length_cons]; omega
    · rw [langLoop_cons_supported env cfg language rest st hsup] at hs
      set P := processLocale env cfg st cfg.sourceLanguage language env.options.«namespace» with hP
      obtain ⟨f1, f2, f3, f4, f5⟩ := filesLoop_counts env (pathJoin cfg.directory cfg.sourceLanguage)
        (pathJoin cfg.directory language) language
        ((localeNamespaces cfg env.options.«namespace»).map (fun ns => ns ++ ".json")) st
      rw [← processLocale_snd env cfg st cfg.sourceLanguage language env.options.«namespace», ← hP]
        at f1 f2 f3 f4 f5
      rw [List.length_map] at f3 f5
      set Y := showCombinedProgress
        (if P.1 then incLangCompleted P.2 else incLangFailed P.2) language "completed" with hY
      have hYns : Y.stats.namespaces = P.2.stats.namespaces := by
        rw [hY]; cases P.1 <;> simp [incLangCompleted, incLangFailed, pushStats]
      have hYlt : Y.stats.languages.total = P.2.stats.languages.total := by
        rw [hY]; cases P.1 <;> simp [incLangCompleted, incLangFailed, pushStats]
      have hYls : Y.stats.languages.completed + Y.stats.languages.failed
          = P.2.stats.languages.completed + P.2.stats.languages.failed + 1 := by
        rw [hY]; cases P.1 <;> simp [incLangCompleted, incLangFailed, pushStats] <;> omega
      have hYh : Y.statsHistory = P.2.statsHistory ++ [Y.stats] := by
        rw [hY]; cases P.1 <;> simp [incLangCompleted, incLangFailed, pushStats]
      rcases ih Y s hs with hmem | hbound
      · rw [hYh] at hmem
        rcases List.mem_append.mp hmem with h | h
        · -- a snapshot recorded inside the per-file loop of this language
          have hfh := filesLoop_history env (pathJoin cfg.directory cfg.sourceLanguage)
            (pathJoin cfg.directory language) language
            ((localeNamespaces cfg env.options.«namespace»).map (fun ns => ns ++ ".json")) st s
          rw [← processLocale_snd env cfg st cfg.sourceLanguage language env.options.«namespace»,
            ← hP] at hfh
          rcases hfh h with h2 | h2
          · exact Or.inl h2
          · obtain ⟨hb1, hb2, hb3⟩ := h2
            rw [List.length_map] at hb3
            refine Or.inr ⟨by rw [hb1], by rw [hb1, List.length_cons]; omega, hb2, ?_⟩
            rw [List.filter_cons_of_pos (by show cfg.languages.contains language = true; exact hsup),
              List.length_cons, add_one_mul]
            generalize (List.filter (fun l => cfg.languages.contains l) rest).length
              * (localeNamespaces cfg env.options.«namespace»).length = q
            omega
        · -- the snapshot of this language's counter bump
          have hseq := List.mem_singleton.mp h
          refine Or.inr ?_
          constructor
          · rw [hseq, hYlt, f1]
          constructor
          · rw [hseq]
            have := hYls
            rw [f1] at this
            rw [List.length_cons]
            omega
          constructor
          · rw [hseq, hYns, f2]
          · rw [hseq, hYns,
              List.filter_cons_of_pos (by show cfg.languages.contains language = true; exact hsup),
              List.length_cons, add_one_mul]
            generalize (List.filter (fun l => cfg.languages.contains l) rest).length
              * (localeNamespaces cfg env.options.«namespace»).length = q
            omega
      · obtain ⟨hb1, hb2, hb3, hb4⟩ := hbound
        rw [hYlt, f1] at hb1
        rw [hYns, f2] at hb3
        rw [hYns] at hb4
        refine Or.inr ⟨hb1, ?_, hb3, ?_⟩
        · have := hYls
          rw [f1] at this
          rw [List.length_cons]
          omega
        · rw [List.filter_cons_of_pos (by show cfg.languages.contains language = true; exact hsup),
            List.length_cons, add_one_mul]
          generalize hq : (List.filter (fun l => cfg.languages.contains l) rest).length
            * (localeNamespaces cfg env.options.«namespace»).length = q at hb4 ⊢
          omega

/-- Once at least one full namespace list has been completed (the global
namespaces completed counter is a positive multiple of the per-language
file count), every further supported language processed without any file
failure is counted as failed: its end-of-language equality check compares
the accumulated global count against one list worth. -/
theorem langLoop_after_first (env : Env) (cfg : Config) :
    ∀ (langs : List String) (st : RunState) (k : Nat),
      1 ≤ k →
      (∀ l ∈ langs, cfg.languages.contains l = true) →
      st.stats.namespaces.total = (localeNamespaces cfg env.options.«namespace»).length →
      st.stats.namespaces.completed
        = k * (localeNamespaces cfg env.options.«namespace»).length →
      1 ≤ (localeNamespaces cfg env.options.«namespace»).length →
      (langLoop env cfg langs st).stats.namespaces.failed = st.stats.namespaces.failed →
      (langLoop env cfg langs st).stats.languages.completed = st.stats.languages.completed
      ∧ (langLoop env cfg langs st).stats.languages.failed
          = st.stats.languages.failed + langs.length := by
  intro langs
  induction langs with
  | nil =>
    intro st k _ _ _ _ _ _
    simp [langLoop]
  | cons language rest ih =>
    intro st k hk hall htot hcomp hM hfail
    have hsup : cfg.languages.contains language = true := hall language (List.mem_cons_self _ _)
    rw [langLoop_cons_supported env cfg language rest st hsup] at hfail ⊢
    set P := processLocale env cfg st cfg.sourceLanguage language env.options.«namespace» with hP
    obtain ⟨f1, f2, f3, f4, f5⟩ := filesLoop_counts env (pathJoin cfg.directory cfg.sourceLanguage)
      (pathJoin cfg.directory language) language
      ((localeNamespaces cfg env.options.«namespace»).map (fun ns => ns ++ ".json")) st
    rw [← processLocale_snd env cfg st cfg.sourceLanguage language env.options.«namespace», ← hP]
      at f1 f2 f3 f4 f5
    rw [List.length_map] at f3 f5
    set Y := showCombinedProgress
      (if P.1 then incLangCompleted P.2 else incLangFailed P.2) language "completed" with hY
    have hYns : Y.stats.namespaces = P.2.stats.namespaces := by
      rw [hY]; cases P.1 <;> simp [incLangCompleted, incLangFailed, pushStats]
    obtain ⟨-, -, -, -, g5⟩ := langLoop_counts env cfg rest Y
    have hPf : P.2.stats.namespaces.failed = st.stats.namespaces.failed := by
      rw [hYns] at g5
      omega
    have hPc : P.2.stats.namespaces.completed
        = st.stats.namespaces.completed
          + (localeNamespaces cfg env.options.«namespace»).length := by
      omega
    have hP1 : P.1 = false := by
      have hfst : P.1 = (P.2.stats.namespaces.completed == P.2.stats.namespaces.total) := by
        rw [hP]
        exact processLocale_fst env cfg st cfg.sourceLanguage language env.options.«namespace»
      rw [hfst, hPc, f2, htot, hcomp]
      have hkM : (localeNamespaces cfg env.options.«namespace»).length
          ≤ k * (localeNamespaces cfg env.options.«namespace»).length := by
        have h2 := Nat.mul_le_mul hk
          (Nat.le_refl (localeNamespaces cfg env.options.«namespace»).length)
        simpa using h2
      have hne : k * (localeNamespaces cfg env.options.«namespace»).length
          + (localeNamespaces cfg env.options.«namespace»).length
          ≠ (localeNamespaces cfg env.options.«namespace»).length := by omega
      exact beq_eq_false_iff_ne.mpr hne
    have hYdef : Y = showCombinedProgress (incLangFailed P.2) language "completed" := by
      rw [hY, hP1]; simp
    have hYlc : Y.stats.languages.completed = st.stats.languages.completed := by
      rw [hYdef]
      simp [incLangFailed, pushStats]
      rw [f1]
    have hYlf : Y.stats.languages.failed = st.stats.languages.failed + 1 := by
      rw [hYdef]
      simp [incLangFailed, pushStats]
      rw [f1]
    have hYtot : Y.stats.namespaces.total
        = (localeNamespaces cfg env.options.«namespace»).length := by
      rw [hYns, f2, htot]
    have hYcomp : Y.stats.namespaces.completed
        = (k + 1) * (localeNamespaces cfg env.options.«namespace»).length := by
      rw [hYns, hPc, hcomp, add_one_mul]
    have hfail2 : (langLoop env cfg rest Y).stats.namespaces.failed
        = Y.stats.namespaces.failed := by
      rw [hYns, hPf]
      exact hfail
    obtain ⟨r1, r2⟩ := ih Y (k + 1) (by omega)
      (fun l hl => hall l (List.mem_cons_of_mem _ hl)) hYtot hYcomp hM hfail2
    constructor
    · rw [r1, hYlc]
    · rw [r2, hYlf, List.length_cons]; omega

/-! ### The program points of `run` and their equations -/

/-- The state right before the invalid-namespace check in `run`: both
totals set, header lines logged. -/
def headerState (env : Env) (cfg : Config) : RunState :=
  log (log (setNsTotal (setLangTotal (initState env) (languagesToTranslate env cfg).length)
        (validateNamespaces cfg env.options.«namespace»).valid.length)
      "Starting translation process...")
    ("Source: " ++ cfg.sourceLanguage ++ " -> Target: " ++
      String.intercalate ", " (languagesToTranslate env cfg))

/-- The state right after the confirmation prompt inside `promptGate`. -/
def gateState (env : Env) (cfg : Config) (vr : ValidationResult) (st : RunState) : RunState :=
  (promptUser env
    (log (log st ("Invalid namespaces: " ++ String.intercalate ", " vr.errors))
      ("Available namespaces: " ++ String.intercalate ", " cfg.namespaces))
    "Continue with valid namespaces only? (y/n): ").2

theorem run_ok (env : Env) (cfg : Config) (h : env.configLoad = Except.ok cfg) :
    run env = runWithConfig env cfg := by
  unfold run
  rw [h]

theorem runWithConfig_eq (env : Env) (cfg : Config) :
    runWithConfig env cfg
      = (if 0 < (validateNamespaces cfg env.options.«namespace»).errors.length
         then promptGate env cfg (languagesToTranslate env cfg)
                (validateNamespaces cfg env.options.«namespace») (headerState env cfg)
         else runLoop env cfg (languagesToTranslate env cfg)
                (validateNamespaces cfg env.options.«namespace») (headerState env cfg)) := rfl

theorem promptGate_eq (env : Env) (cfg : Config) (targets : List String)
    (vr : ValidationResult) (st : RunState) :
    promptGate env cfg targets vr st
      = (if strToLower (strTrim env.answer) ≠ "y" ∧ strToLower (strTrim env.answer) ≠ "yes"
         then RunResult.exited 0 (log (gateState env cfg vr st) "Operation cancelled by user.")
         else runLoop env cfg targets vr
                (log (gateState env cfg vr st) "Continuing with valid namespaces...")) := rfl

theorem runLoop_eq (env : Env) (cfg : Config) (targets : List String) (vr : ValidationResult)
    (st : RunState) :
    runLoop env cfg targets vr st
      = RunResult.finished (log (langLoop env cfg targets
          (log st ("Namespaces: " ++ String.intercalate ", " vr.valid)))
          "Translation process completed!") := rfl

theorem headerState_stats (env : Env) (cfg : Config) :
    (headerState env cfg).stats
      = ⟨⟨(languagesToTranslate env cfg).length, 0, 0⟩,
         ⟨(validateNamespaces cfg env.options.«namespace»).valid.length, 0, 0⟩⟩ := rfl

theorem headerState_statsHistory (env : Env) (cfg : Config) :
    (headerState env cfg).statsHistory
      = [⟨⟨(languagesToTranslate env cfg).length, 0, 0⟩, ⟨0, 0, 0⟩⟩,
         ⟨⟨(languagesToTranslate env cfg).length, 0, 0⟩,
          ⟨(validateNamespaces cfg env.options.«namespace»).valid.length, 0, 0⟩⟩] := rfl

/-- When every requested namespace is valid, the validated list and the
list `processLocale` iterates over have the same length. -/
theorem valid_length_of_no_errors (cfg : Config) (nso : Option (List String))
    (h : (validateNamespaces cfg nso).errors = []) :
    (validateNamespaces cfg nso).valid.length = (localeNamespaces cfg nso).length := by
  cases nso with
  | none => rfl
  | some l =>
    by_cases hl : l.length = 0
    · have hnil : l = [] := List.length_eq_zero.mp hl
      subst hnil
      rfl
    · have hpos : 0 < l.length := Nat.pos_of_ne_zero hl
      simp only [validateNamespaces, localeNamespaces, if_neg hl, if_pos hpos] at h ⊢
      have hall : ∀ x ∈ l, cfg.namespaces.contains x = true := by
        intro x hx
        have h2 := List.filter_eq_nil_iff.mp h x hx
        simpa using h2
      rw [List.filter_eq_self.mpr hall]

/-- When two or more target languages are to be processed, the `-l` flag
was absent, so every target comes from the configured language list and
is supported. -/
theorem targets_supported (env : Env) (cfg : Config)
    (hlen : 2 ≤ (languagesToTranslate env cfg).length) :
    ∀ l ∈ languagesToTranslate env cfg, cfg.languages.contains l = true := by
  intro l hl
  by_cases hopt : env.options.language ≠ ""
  · simp only [languagesToTranslate, if_pos hopt] at hlen
    simp at hlen
  · simp only [languagesToTranslate, if_neg hopt] at hl
    have hmem := (List.mem_filter.mp hl).1
    exact List.elem_iff.mpr hmem

/-- Case analysis of a whole run, once the configuration loads: every
recorded statistics snapshot is either one of the two initialization
snapshots, or keeps both totals with the language count bounded by the
number of targets and the namespace count bounded by one namespace-list
worth per supported target. -/
theorem run_history (env : Env) (cfg : Config) (hcfg : env.configLoad = Except.ok cfg) :
    ∀ s ∈ (run env).st.statsHistory,
      (s = ⟨⟨(languagesToTranslate env cfg).length, 0, 0⟩, ⟨0, 0, 0⟩⟩
       ∨ s = ⟨⟨(languagesToTranslate env cfg).length, 0, 0⟩,
              ⟨(validateNamespaces cfg env.options.«namespace»).valid.length, 0, 0⟩⟩)
      ∨ (s.languages.total = (languagesToTranslate env cfg).length
         ∧ s.languages.completed + s.languages.failed ≤ (languagesToTranslate env cfg).length
         ∧ s.namespaces.total = (validateNamespaces cfg env.options.«namespace»).valid.length
         ∧ s.namespaces.completed + s.namespaces.failed
             ≤ ((languagesToTranslate env cfg).filter (fun l => cfg.languages.contains l)).length
               * (localeNamespaces cfg env.options.«namespace»).length) := by
  have common : ∀ stpre : RunState,
      stpre.stats = (headerState env cfg).stats →
      stpre.statsHistory = (headerState env cfg).statsHistory →
      ∀ s ∈ (langLoop env cfg (languagesToTranslate env cfg)
          (log stpre ("Namespaces: " ++ String.intercalate ", "
            (validateNamespaces cfg env.options.«namespace»).valid))).statsHistory,
        (s = ⟨⟨(languagesToTranslate env cfg).length, 0, 0⟩, ⟨0, 0, 0⟩⟩
         ∨ s = ⟨⟨(languagesToTranslate env cfg).length, 0, 0⟩,
                ⟨(validateNamespaces cfg env.options.«namespace»).valid.length, 0, 0⟩⟩)
        ∨ (s.languages.total = (languagesToTranslate env cfg).length
           ∧ s.languages.completed + s.languages.failed
               ≤ (languagesToTranslate env cfg).length
           ∧ s.namespaces.total = (validateNamespaces cfg env.options.«namespace»).valid.length
           ∧ s.namespaces.completed + s.namespaces.failed
               ≤ ((languagesToTranslate env cfg).filter
                    (fun l => cfg.languages.contains l)).length
                 * (localeNamespaces cfg env.options.«namespace»).length) := by
    intro stpre hstats hhist s hs
    rcases langLoop_history env cfg (languagesToTranslate env cfg) _ s hs with hmem | hbound
    · left
      have hh : (log stpre ("Namespaces: " ++ String.intercalate ", "
          (validateNamespaces cfg env.options.«namespace»).valid)).statsHistory
          = (headerState env cfg).statsHistory := by
        simp [hhist]
      rw [hh, headerState_statsHistory] at hmem
      simpa using hmem
    · right
      obtain ⟨b1, b2, b3, b4⟩ := hbound
      have he : (log stpre ("Namespaces: " ++ String.intercalate ", "
          (validateNamespaces cfg env.options.«namespace»).valid)).stats
          = (headerState env cfg).stats := by
        simp [hstats]
      rw [he, headerState_stats] at b1 b2 b3 b4
      simp only [] at b1 b2 b3 b4
      exact ⟨b1, by omega, b3, by omega⟩
  intro s hs
  rw [run_ok env cfg hcfg, runWithConfig_eq] at hs
  by_cases herr : 0 < (validateNamespaces cfg env.options.«namespace»).errors.length
  · rw [if_pos herr, promptGate_eq] at hs
    by_cases hans : strToLower (strTrim env.answer) ≠ "y"
        ∧ strToLower (strTrim env.answer) ≠ "yes"
    · rw [if_pos hans] at hs
      left
      have hh : (RunResult.exited 0 (log (gateState env cfg
          (validateNamespaces cfg env.options.«namespace») (headerState env cfg))
          "Operation cancelled by user.")).st.statsHistory
          = (headerState env cfg).statsHistory := by
        simp [RunResult.st, gateState, promptUser]
      rw [hh, headerState_statsHistory] at hs
      simpa using hs
    · rw [if_neg hans, runLoop_eq] at hs
      refine common (log (gateState env cfg
          (validateNamespaces cfg env.options.«namespace») (headerState env cfg))
          "Continuing with valid namespaces...") ?_ ?_ s ?_
      · simp [gateState, promptUser]
      · simp [gateState, promptUser]
      · simpa [RunResult.st] using hs
  · rw [if_neg herr, runLoop_eq] at hs
    refine common (headerState env cfg) rfl rfl s ?_
    simpa [RunResult.st] using hs

/-- The shape of every run that returns normally: the final state is the
language loop run from the post-header state, wrapped in the two tail
logs; the pre-loop state always carries the header statistics. -/
theorem run_finished_shape (env : Env) (cfg : Config) (st1 : RunState)
    (hcfg : env.configLoad = Except.ok cfg)
    (hrun : run env = RunResult.finished st1) :
    ∃ stpre, stpre.stats = (headerState env cfg).stats ∧
      st1 = log (langLoop env cfg (languagesToTranslate env cfg)
        (log stpre ("Namespaces: " ++ String.intercalate ", "
          (validateNamespaces cfg env.options.«namespace»).valid)))
        "Translation process completed!" := by
  rw [run_ok env cfg hcfg, runWithConfig_eq] at hrun
  by_cases herr : 0 < (validateNamespaces cfg env.options.«namespace»).errors.length
  · rw [if_pos herr, promptGate_eq] at hrun
    by_cases hans : strToLower (strTrim env.answer) ≠ "y"
        ∧ strToLower (strTrim env.answer) ≠ "yes"
    · rw [if_pos hans] at hrun
      exact absurd hrun (by simp)
    · rw [if_neg hans, runLoop_eq] at hrun
      exact ⟨log (gateState env cfg (validateNamespaces cfg env.options.«namespace»)
          (headerState env cfg)) "Continuing with valid namespaces...",
        by simp [gateState, promptUser], (RunResult.finished.inj hrun).symm⟩
  · rw [if_neg herr, runLoop_eq] at hrun
    exact ⟨headerState env cfg, rfl, (RunResult.finished.inj hrun).symm⟩

/-! ### Remaining concrete environments -/

/-- `envOkNoOpts` with a single target language. -/
def c1wEnv : Env :=
  { envOkNoOpts with configLoad := Except.ok ⟨"d", "en", ["en", "fr"], ["home"]⟩ }

/-- A run requesting only the invalid namespace `ghost` whose source file
nevertheless exists on disk; the user answers `y`. -/
def c2Env : Env :=
  { options := { language := "", «namespace» := some ["ghost"], config := "localiser.json" }
  , configLoad := Except.ok ⟨"d", "en", ["en", "fr"], ["home"]⟩
  , fs0 := [("d/en/ghost.json", FileData.json testObj)]
  , api := fun _ _ => ApiOutcome.ok "resp"
  , parse := fun _ => Except.ok (Json.obj [("t", Json.str "x")])
  , stringify := fun _ => "S"
  , answer := "y" }

/-- A run requesting one valid and one invalid namespace, both of whose
source files exist; two target languages; the user answers `" Y "`. -/
def c9cEnv : Env :=
  { options := { language := "", «namespace» := some ["a", "b"], config := "localiser.json" }
  , configLoad := Except.ok ⟨"d", "en", ["en", "fr", "de"], ["a"]⟩
  , fs0 := [("d/en/a.json", FileData.json testObj), ("d/en/b.json", FileData.json testObj)]
  , api := fun _ _ => ApiOutcome.ok "resp"
  , parse := fun _ => Except.ok (Json.obj [("t", Json.str "x")])
  , stringify := fun _ => "S"
  , answer := " Y " }

/-- A run requesting an invalid namespace where the user answers `n`. -/
def c7wEnv : Env :=
  { options := { language := "", «namespace» := some ["ghost"], config := "localiser.json" }
  , configLoad := Except.ok ⟨"d", "en", ["en", "fr"], ["home"]⟩
  , fs0 := []
  , api := fun _ _ => ApiOutcome.ok "resp"
  , parse := fun _ => Except.ok (Json.obj [("t", Json.str "x")])
  , stringify := fun _ => "S"
  , answer := "n" }

/-! ### Claim C1 -/

/-- C1 (amended): at the end of every run that returns normally, the
languages counters satisfy completed + failed = total; the namespaces
counters satisfy completed + failed = s * m, where s is the number of
supported target languages and m the number of namespace files each
language processes; in particular completed + failed = total for the
namespaces group when every requested namespace is valid and exactly one
supported target language is processed. -/
theorem claim_C1 (env : Env) (cfg : Config) (st1 : RunState)
    (hcfg : env.configLoad = Except.ok cfg)
    (hrun : run env = RunResult.finished st1) :
    st1.stats.languages.completed + st1.stats.languages.failed = st1.stats.languages.total
    ∧ st1.stats.namespaces.completed + st1.stats.namespaces.failed
        = ((languagesToTranslate env cfg).filter (fun l => cfg.languages.contains l)).length
          * (localeNamespaces cfg env.options.«namespace»).length
    ∧ ((validateNamespaces cfg env.options.«namespace»).errors = [] →
        ((languagesToTranslate env cfg).filter (fun l => cfg.languages.contains l)).length = 1 →
        st1.stats.namespaces.completed + st1.stats.namespaces.failed
          = st1.stats.namespaces.total) := by
  obtain ⟨stpre, hstats, hst1⟩ := run_finished_shape env cfg st1 hcfg hrun
  set st0 := log stpre ("Namespaces: " ++ String.intercalate ", "
    (validateNamespaces cfg env.options.«namespace»).valid) with hst0
  have he : st0.stats = (headerState env cfg).stats := by simp [hst0, hstats]
  have e1 : st0.stats.languages.total = (languagesToTranslate env cfg).length := by
    rw [he, headerState_stats]
  have e2 : st0.stats.languages.completed = 0 := by rw [he, headerState_stats]
  have e3 : st0.stats.languages.failed = 0 := by rw [he, headerState_stats]
  have e4 : st0.stats.namespaces.total
      = (validateNamespaces cfg env.options.«namespace»).valid.length := by
    rw [he, headerState_stats]
  have e5 : st0.stats.namespaces.completed = 0 := by rw [he, headerState_stats]
  have e6 : st0.stats.namespaces.failed = 0 := by rw [he, headerState_stats]
  obtain ⟨c1, c2, c3, c4, c5⟩ := langLoop_counts env cfg (languagesToTranslate env cfg) st0
  rw [e1] at c1
  rw [e4] at c2
  rw [e2, e3] at c3
  rw [e5, e6] at c4
  have hs : st1.stats = (langLoop env cfg (languagesToTranslate env cfg) st0).stats := by
    rw [hst1]; simp
  refine ⟨?_, ?_, ?_⟩
  · rw [hs, c3, c1]; omega
  · rw [hs, c4]; simp
  · intro herr2 hone
    have hVM := valid_length_of_no_errors cfg env.options.«namespace» herr2
    rw [hs, c4, c2, hone, one_mul]
    omega

/-- Counterexample to C1 as stated: a finished run with two target
languages and one namespace in which every file succeeds ends with the
namespaces counters summing to 2 while the total is 1. -/
theorem claim_C1_counterexample :
    (run envOkNoOpts).exitCode = none
    ∧ (run envOkNoOpts).st.stats.namespaces.completed
        + (run envOkNoOpts).st.stats.namespaces.failed
      ≠ (run envOkNoOpts).st.stats.namespaces.total := by
  exact ⟨rfl, by decide⟩

/-- Witness for C1 at a single-target-language run: both counter groups
sum to their totals. -/
theorem claim_C1_witness :
    (RunResult.st (run c1wEnv)).stats.languages.completed
        + (RunResult.st (run c1wEnv)).stats.languages.failed
      = (RunResult.st (run c1wEnv)).stats.languages.total
    ∧ (RunResult.st (run c1wEnv)).stats.namespaces.completed
        + (RunResult.st (run c1wEnv)).stats.namespaces.failed
      = (RunResult.st (run c1wEnv)).stats.namespaces.total := by
  obtain ⟨h1, h2, h3⟩ := claim_C1 c1wEnv ⟨"d", "en", ["en", "fr"], ["home"]⟩
    (RunResult.st (run c1wEnv)) rfl rfl
  exact ⟨h1, h3 rfl (by decide)⟩

/-! ### Claim C3 -/

/-- Whether a statistics snapshot satisfies the languages invariant. -/
def statsLangOK (s : Stats) : Bool :=
  decide (s.languages.completed + s.languages.failed ≤ s.languages.total)

/-- Whether a statistics snapshot satisfies the namespaces invariant. -/
def statsNsOK (s : Stats) : Bool :=
  decide (s.namespaces.completed + s.namespaces.failed ≤ s.namespaces.total)

/-- Whether a statistics snapshot violates the namespaces invariant. -/
def statsNsBad (s : Stats) : Bool :=
  decide (s.namespaces.total < s.namespaces.completed + s.namespaces.failed)

/-- C3 (amended): at every recorded point of every run the languages
counters satisfy completed + failed ≤ total; the namespaces counters
satisfy completed + failed ≤ total at every recorded point provided
every requested namespace is valid and at most one supported target
language is processed. -/
theorem claim_C3 (env : Env) :
    (∀ s ∈ (run env).st.statsHistory,
        s.languages.completed + s.languages.failed ≤ s.languages.total)
    ∧ (∀ cfg, env.configLoad = Except.ok cfg →
        (validateNamespaces cfg env.options.«namespace»).errors = [] →
        ((languagesToTranslate env cfg).filter (fun l => cfg.languages.contains l)).length ≤ 1 →
        ∀ s ∈ (run env).st.statsHistory,
          s.namespaces.completed + s.namespaces.failed ≤ s.namespaces.total) := by
  constructor
  · intro s hs
    cases hcfg : env.configLoad with
    | error m =>
      have hrr : run env = RunResult.exited 1 (log (initState env)
          ("Error loading project config: " ++ m)) := by
        unfold run; rw [hcfg]
      rw [hrr] at hs
      simp [RunResult.st, initState] at hs
    | ok cfg =>
      rcases run_history env cfg hcfg s hs with hinit | hbound
      · rcases hinit with h | h <;> (rw [h]; simp)
      · obtain ⟨b1, b2, -, -⟩ := hbound
        rw [b1]; exact b2
  · intro cfg hcfg herr hsupp s hs
    rcases run_history env cfg hcfg s hs with hinit | hbound
    · rcases hinit with h | h <;> (rw [h]; simp)
    · obtain ⟨-, -, b3, b4⟩ := hbound
      rw [b3]
      have hVM := valid_length_of_no_errors cfg env.options.«namespace» herr
      have hb : ((languagesToTranslate env cfg).filter
          (fun l => cfg.languages.contains l)).length
          * (localeNamespaces cfg env.options.«namespace»).length
          ≤ (localeNamespaces cfg env.options.«namespace»).length := by
        have h2 := Nat.mul_le_mul hsupp
          (Nat.le_refl (localeNamespaces cfg env.options.«namespace»).length)
        simpa using h2
      generalize hq : ((languagesToTranslate env cfg).filter
          (fun l => cfg.languages.contains l)).length
          * (localeNamespaces cfg env.options.«namespace»).length = q at b4 hb
      omega

/-- Counterexample to C3 as stated: in the two-target-language run the
history contains a point where the namespaces counters exceed the
total. -/
theorem claim_C3_counterexample :
    (run envOkNoOpts).exitCode = none
    ∧ ((run envOkNoOpts).st.statsHistory.any statsNsBad) = true := by
  exact ⟨rfl, by decide⟩

/-- Witness for C3 at a single-target-language run: every recorded point
satisfies both invariants. -/
theorem claim_C3_witness :
    ((RunResult.st (run c1wEnv)).statsHistory.all statsLangOK) = true
    ∧ ((RunResult.st (run c1wEnv)).statsHistory.all statsNsOK) = true := by
  obtain ⟨h1, h2⟩ := claim_C3 c1wEnv
  constructor
  · rw [List.all_eq_true]
    intro s hs
    have h3 := h1 s hs
    simpa [statsLangOK] using h3
  · rw [List.all_eq_true]
    intro s hs
    have h3 := h2 ⟨"d", "en", ["en", "fr"], ["home"]⟩ rfl rfl (by decide) s hs
    simpa [statsNsOK] using h3

/-! ### Claim C7 -/

/-- C7: when at least one requested namespace is invalid and the user
answers anything other than yes, the run exits with status 0, no file
has been written, and all completed and failed counters are zero. -/
theorem claim_C7 (env : Env) (cfg : Config)
    (hcfg : env.configLoad = Except.ok cfg)
    (herr : (validateNamespaces cfg env.options.«namespace»).errors ≠ [])
    (hy : strToLower (strTrim env.answer) ≠ "y")
    (hyes : strToLower (strTrim env.answer) ≠ "yes") :
    (run env).exitCode = some 0
    ∧ (run env).st.trace.filter Event.isWrite = []
    ∧ (run env).st.stats.languages.completed = 0
    ∧ (run env).st.stats.languages.failed = 0
    ∧ (run env).st.stats.namespaces.completed = 0
    ∧ (run env).st.stats.namespaces.failed = 0 := by
  have hrun : run env = RunResult.exited 0 (log (gateState env cfg
      (validateNamespaces cfg env.options.«namespace») (headerState env cfg))
      "Operation cancelled by user.") := by
    rw [run_ok env cfg hcfg, runWithConfig_eq, if_pos (List.length_pos.mpr herr),
      promptGate_eq, if_pos ⟨hy, hyes⟩]
  rw [hrun]
  refine ⟨rfl, ?_, rfl, rfl, rfl, rfl⟩
  simp [RunResult.st, gateState, headerState, promptUser, log, initState, setNsTotal,
    setLangTotal, pushStats, Event.isWrite]

/-- Witness for C7: requesting the invalid namespace `ghost` and typing
`n` aborts with exit status 0, no writes, and zeroed counters. -/
theorem claim_C7_witness :
    (run c7wEnv).exitCode = some 0
    ∧ (run c7wEnv).st.trace.filter Event.isWrite = []
    ∧ (run c7wEnv).st.stats.languages.completed = 0
    ∧ (run c7wEnv).st.stats.languages.failed = 0
    ∧ (run c7wEnv).st.stats.namespaces.completed = 0
    ∧ (run c7wEnv).st.stats.namespaces.failed = 0 :=
  claim_C7 c7wEnv ⟨"d", "en", ["en", "fr"], ["home"]⟩ rfl (by decide) (by decide) (by decide)

/-! ### Claim C9 -/

/-- C9 (amended): `processLocale` reports a language as successful
exactly when the run-global namespaces completed counter equals the
run-global total; consequently, in every normally-finishing run with two
or more target languages, at least one namespace per language, every
requested namespace valid, and no file failure, only the first language
is counted as completed and every subsequent language as failed. -/
theorem claim_C9 (env : Env) (cfg : Config) (st1 : RunState)
    (hcfg : env.configLoad = Except.ok cfg)
    (hrun : run env = RunResult.finished st1)
    (hlen : 2 ≤ (languagesToTranslate env cfg).length)
    (herr : (validateNamespaces cfg env.options.«namespace»).errors = [])
    (hM : 1 ≤ (localeNamespaces cfg env.options.«namespace»).length)
    (hfail : st1.stats.namespaces.failed = 0) :
    (∀ (env2 : Env) (cfg2 : Config) (st2 : RunState) (src tl : String)
        (nso : Option (List String)),
      (processLocale env2 cfg2 st2 src tl nso).1
        = ((processLocale env2 cfg2 st2 src tl nso).2.stats.namespaces.completed
            == (processLocale env2 cfg2 st2 src tl nso).2.stats.namespaces.total))
    ∧ st1.stats.languages.completed = 1
    ∧ st1.stats.languages.failed = (languagesToTranslate env cfg).length - 1 := by
  refine ⟨fun env2 cfg2 st2 src tl nso => rfl, ?_⟩
  obtain ⟨stpre, hstats, hst1⟩ := run_finished_shape env cfg st1 hcfg hrun
  set st0 := log stpre ("Namespaces: " ++ String.intercalate ", "
    (validateNamespaces cfg env.options.«namespace»).valid) with hst0
  have he : st0.stats = (headerState env cfg).stats := by simp [hst0, hstats]
  have e1 : st0.stats.languages.completed = 0 := by rw [he, headerState_stats]
  have e2 : st0.stats.languages.failed = 0 := by rw [he, headerState_stats]
  have e4 : st0.stats.namespaces.total
      = (localeNamespaces cfg env.options.«namespace»).length := by
    rw [he, headerState_stats]
    exact valid_length_of_no_errors cfg env.options.«namespace» herr
  have e5 : st0.stats.namespaces.completed = 0 := by rw [he, headerState_stats]
  have e6 : st0.stats.namespaces.failed = 0 := by rw [he, headerState_stats]
  have hs : st1.stats = (langLoop env cfg (languagesToTranslate env cfg) st0).stats := by
    rw [hst1]; simp
  have hsupall := targets_supported env cfg hlen
  obtain ⟨t, ts, hts⟩ : ∃ t ts, languagesToTranslate env cfg = t :: ts := by
    cases hT : languagesToTranslate env cfg with
    | nil => rw [hT] at hlen; simp at hlen
    | cons t ts => exact ⟨t, ts, rfl⟩
  rw [hts] at hs hsupall
  have hsup1 : cfg.languages.contains t = true := hsupall t (List.mem_cons_self _ _)
  rw [langLoop_cons_supported env cfg t ts st0 hsup1] at hs
  set P := processLocale env cfg st0 cfg.sourceLanguage t env.options.«namespace» with hP
  obtain ⟨f1, f2, f3, f4, f5⟩ := filesLoop_counts env (pathJoin cfg.directory cfg.sourceLanguage)
    (pathJoin cfg.directory t) t
    ((localeNamespaces cfg env.options.«namespace»).map (fun ns => ns ++ ".json")) st0
  rw [← processLocale_snd env cfg st0 cfg.sourceLanguage t env.options.«namespace», ← hP]
    at f1 f2 f3 f4 f5
  rw [List.length_map] at f3 f5
  set Y := showCombinedProgress (if P.1 then incLangCompleted P.2 else incLangFailed P.2)
    t "completed" with hY
  have hYns : Y.stats.namespaces = P.2.stats.namespaces := by
    rw [hY]; cases P.1 <;> simp [incLangCompleted, incLangFailed, pushStats]
  obtain ⟨-, -, -, -, g5⟩ := langLoop_counts env cfg ts Y
  have hfin : (langLoop env cfg ts Y).stats.namespaces.failed = 0 := by
    rw [← hs]; exact hfail
  have hPf : P.2.stats.namespaces.failed = 0 := by
    rw [hYns] at g5
    omega
  have hPc : P.2.stats.namespaces.completed
      = (localeNamespaces cfg env.options.«namespace»).length := by
    omega
  have hP1 : P.1 = true := by
    have hfst : P.1 = (P.2.stats.namespaces.completed == P.2.stats.namespaces.total) := by
      rw [hP]
      exact processLocale_fst env cfg st0 cfg.sourceLanguage t env.options.«namespace»
    rw [hfst, hPc, f2, e4]
    exact beq_self_eq_true _
  have hYdef : Y = showCombinedProgress (incLangCompleted P.2) t "completed" := by
    rw [hY, hP1]; simp
  have hYlc : Y.stats.languages.completed = 1 := by
    simp [hYdef, incLangCompleted, pushStats, f1, e1]
  have hYlf : Y.stats.languages.failed = 0 := by
    simp [hYdef, incLangCompleted, pushStats, f1, e2]
  have hYtot : Y.stats.namespaces.total
      = (localeNamespaces cfg env.options.«namespace»).length := by
    rw [hYns, f2, e4]
  have hYcomp : Y.stats.namespaces.completed
      = 1 * (localeNamespaces cfg env.options.«namespace»).length := by
    rw [hYns, hPc, one_mul]
  have hfail2 : (langLoop env cfg ts Y).stats.namespaces.failed
      = Y.stats.namespaces.failed := by
    rw [hfin, hYns, hPf]
  obtain ⟨r1, r2⟩ := langLoop_after_first env cfg ts Y 1 (le_refl 1)
    (fun l hl => hsupall l (List.mem_cons_of_mem _ hl)) hYtot hYcomp hM hfail2
  constructor
  · rw [hs, r1, hYlc]
  · rw [hs, r2, hYlf, hts, List.length_cons]
    omega

/-- Counterexample to C9 as stated: requesting one valid and one invalid
namespace whose source files both exist, with two target languages and
the user answering yes, finishes with every file succeeding yet no
language counted as completed. -/
theorem claim_C9_counterexample :
    (run c9cEnv).exitCode = none
    ∧ 2 ≤ (languagesToTranslate c9cEnv ⟨"d", "en", ["en", "fr", "de"], ["a"]⟩).length
    ∧ 1 ≤ (localeNamespaces ⟨"d", "en", ["en", "fr", "de"], ["a"]⟩
        c9cEnv.options.«namespace»).length
    ∧ (run c9cEnv).st.stats.namespaces.failed = 0
    ∧ (run c9cEnv).st.stats.languages.completed = 0 := by
  refine ⟨rfl, by decide, by decide, by decide, by decide⟩

/-- Witness for C9 at the all-valid two-target run: the first language
completes, the second fails. -/
theorem claim_C9_witness :
    (RunResult.st (run envOkNoOpts)).stats.languages.completed = 1
    ∧ (RunResult.st (run envOkNoOpts)).stats.languages.failed
        = (languagesToTranslate envOkNoOpts ⟨"d", "en", ["en", "fr", "de"], ["home"]⟩).length
          - 1 := by
  obtain ⟨-, h2, h3⟩ := claim_C9 envOkNoOpts ⟨"d", "en", ["en", "fr", "de"], ["home"]⟩
    (RunResult.st (run envOkNoOpts)) rfl rfl (by decide) rfl (by decide) (by decide)
  exact ⟨h2, h3⟩

/-! ### Claim C2 -/

/-- C2 is a code bug: `run` passes the raw `this.options.namespace` to
`processLocale` (src/index.js:371) instead of the validated list its own
comments say it reuses.  At the failing input (requesting only `ghost`,
absent from the configuration, whose source file exists; answering yes),
the invalid name is excluded from the total (0) as claimed, but its file
is processed anyway, translated, and a target file is written, leaving
the namespaces completed counter at 1 against a total of 0. -/
theorem claim_C2_bug :
    (run c2Env).exitCode = none
    ∧ (run c2Env).st.stats.namespaces.total = 0
    ∧ (run c2Env).st.stats.namespaces.completed = 1
    ∧ ((run c2Env).st.trace.any (isWriteTo "d/fr/ghost.json")) = true := by
  refine ⟨rfl, rfl, by decide, by decide⟩

end Localiser
